import Mathlib

/-!
Verification development for the AI-Interview-Studio backend
(`main.py`, `tts_handler.py`, `stt_handler.py`).

Python strings are embedded as `List Char`; the Python string operations
used by the code (`strip`, `lstrip`, `startswith`, `in`, single-pass
`replace`) are defined below, faithful to CPython semantics on the
ASCII whitespace set.  External collaborators (speech-to-text, the
language model, the Murf TTS HTTP calls) are passed in as explicit
oracle values, so the orchestration logic itself is a pure function.
-/

namespace AIIS

abbrev PyStr := List Char

/-- ASCII whitespace, the characters Python's default `str.strip` removes
on the inputs relevant here. -/
def pyIsSpace (c : Char) : Bool :=
  c = ' ' || c = '\t' || c = '\n' || c = '\r' ||
    c = Char.ofNat 11 || c = Char.ofNat 12

/-- Python `s.lstrip()`. -/
def pyLstrip (s : PyStr) : PyStr := s.dropWhile pyIsSpace

/-- Python `s.rstrip()`. -/
def pyRstrip (s : PyStr) : PyStr := (s.reverse.dropWhile pyIsSpace).reverse

/-- Python `s.strip()`. -/
def pyStrip (s : PyStr) : PyStr := pyRstrip (pyLstrip s)

/-- Python `sub in s` (substring containment). -/
def pyContains (sub : PyStr) : PyStr → Bool
  | [] => sub.isEmpty
  | c :: t => sub.isPrefixOf (c :: t) || pyContains sub t

/-- Fuel-driven body of Python `s.replace(old, "")` for nonempty `old`:
a single left-to-right pass that removes non-overlapping occurrences
and never rescans the text produced by a removal. -/
def pyRemoveAllFuel (old : PyStr) : Nat → PyStr → PyStr
  | 0, s => s
  | _ + 1, [] => []
  | f + 1, c :: t =>
    if old ≠ [] ∧ old.isPrefixOf (c :: t) then
      pyRemoveAllFuel old f (t.drop (old.length - 1))
    else
      c :: pyRemoveAllFuel old f t

/-- Python `s.replace(old, "")` for nonempty `old`. -/
def pyRemoveAll (old s : PyStr) : PyStr := pyRemoveAllFuel old s.length s

-- Literal constants of `main.py`.

def HR_MARKER : PyStr := "[HR_MANAGER]".toList

def TL_MARKER : PyStr := "[TECH_LEAD]".toList

def END_TOKEN : PyStr := "<END_INTERVIEW>".toList

def HR_MANAGER_NAME : PyStr := "HR Manager".toList

def TECH_LEAD_NAME : PyStr := "Tech Lead".toList

/-- Result of `parse_panel_speaker_and_text`: `(speaker_role, text, interview_done)`. -/
structure PanelParse where
  speaker : PyStr
  text : PyStr
  done : Bool
deriving Repr, DecidableEq

/-- The `if`/`elif`/`else` marker block of `parse_panel_speaker_and_text`
(lines 219-224), applied to the already-stripped raw string: yields
`(speaker_role, text)` before end-token handling. -/
def panelSplit (raw : PyStr) : PyStr × PyStr :=
  if HR_MARKER.isPrefixOf raw then
    (HR_MANAGER_NAME, pyLstrip (raw.drop HR_MARKER.length))
  else if TL_MARKER.isPrefixOf raw then
    (TECH_LEAD_NAME, pyLstrip (raw.drop TL_MARKER.length))
  else
    (HR_MANAGER_NAME, raw)

/-- Function `parse_panel_speaker_and_text` from `main.py` (lines 206-231): strip the
raw model output, strip a leading `[HR_MANAGER]`/`[TECH_LEAD]` marker
(`panelSplit`), detect the end token by substring search, remove it with
one `replace` pass and strip again. -/
def parse_panel_speaker_and_text (raw0 : PyStr) : PanelParse :=
  let sp := panelSplit (pyStrip raw0)
  ⟨sp.1, pyStrip (pyRemoveAll END_TOKEN sp.2), pyContains END_TOKEN sp.2⟩

-- Role strings used in `session_state["history"]` entries.

def CANDIDATE_ROLE : PyStr := "Candidate".toList

def INTERVIEWER_ROLE : PyStr := "Interviewer".toList

/-- One `session_state["history"]` entry:
`{"role": ..., "panelist": ..., "text": ...}`. -/
structure Turn where
  role : PyStr
  panelist : PyStr
  text : PyStr
deriving Repr, DecidableEq

/-- The module-level `session_state` dict of `main.py` (lines 80-86).
Time stamps are embedded as rationals; only their ordering matters here. -/
structure Session where
  start_time : ℚ
  current_q_index : Nat
  follow_up_count : Nat
  last_question : PyStr
  history : List Turn
deriving Repr, DecidableEq

/-- The `session_state` as initialized at import time: `start_time` is `0`,
the counters are `0`, `last_question` is empty, `history` is empty. -/
def initial_session_state : Session :=
  { start_time := 0
    current_q_index := 0
    follow_up_count := 0
    last_question := []
    history := [] }

/-- Constant `MAX_INTERVIEW_DURATION = 300`, the five-minute safety cutoff. -/
def MAX_INTERVIEW_DURATION : ℚ := 300

/-- Mapping `HR_COMPETENCIES`: fixed competency-to-weight table. -/
def HR_COMPETENCIES : List (PyStr × ℚ) :=
  [("Technical Knowledge".toList, 40 / 100),
   ("Communication Skills".toList, 30 / 100),
   ("Problem Solving".toList, 20 / 100),
   ("Cultural Fit".toList, 10 / 100)]

/-- The structured report parsed from the model's JSON in
`generate_final_report` (the `report_json` value). -/
structure Report where
  technical_knowledge : ℚ
  communication_skills : ℚ
  problem_solving : ℚ
  cultural_fit : ℚ
  overall_score : ℚ
  recommendation : PyStr
  pros : List PyStr
  cons : List PyStr
  summary : PyStr
deriving Repr, DecidableEq

/-- Modelled from the spec: the weighted overall score that §8 of the
design document says is "deterministically derivable from the four
competency scores and the fixed weights (0.40/0.30/0.20/0.10)".
`main.py` itself never computes this; the model-supplied
`overall_score` is forwarded unchecked. -/
def specWeightedOverall (r : Report) : ℚ :=
  (40 / 100) * r.technical_knowledge + (30 / 100) * r.communication_skills +
    (20 / 100) * r.problem_solving + (10 / 100) * r.cultural_fit

/-- Decimal digits of a natural number (base 10). -/
def natDigits (n : Nat) : PyStr := Nat.toDigits 10 n

/-- Rendering of Python `f"{x:.1f}"` for the closing message: one decimal
digit, rounding to nearest (the binary-float tie behaviour of CPython is
approximated by round-half-up; no claim depends on tie cases). -/
def ratToDecimal1 (q : ℚ) : PyStr :=
  let n : ℤ := round (q * 10)
  let m := n.natAbs
  (if n < 0 then ['-'] else []) ++ natDigits (m / 10) ++ ['.'] ++ natDigits (m % 10)

/-- The closing message formatted in `generate_final_report`:
`f"Interview complete. Overall Score: {overall_score:.1f}/10. Result: {recommendation}."`. -/
def closingMsg (r : Report) : PyStr :=
  "Interview complete. Overall Score: ".toList ++ ratToDecimal1 r.overall_score ++
    "/10. Result: ".toList ++ r.recommendation ++ ".".toList

/-- Base64 alphabet (RFC 4648). -/
def b64Alphabet : PyStr :=
  "ABCDEFGHIJKLMNOPQRSTUVWXYZabcdefghijklmnopqrstuvwxyz0123456789+/".toList

def b64Char (n : Nat) : Char := b64Alphabet.getD n 'A'

/-- Python `base64.b64encode(bytes).decode("utf-8")` on a byte list. -/
def base64Encode : List Nat → PyStr
  | [] => []
  | [a] => [b64Char (a / 4 % 64), b64Char (a % 4 * 16), '=', '=']
  | [a, b] => [b64Char (a / 4 % 64), b64Char (a % 4 * 16 + b / 16), b64Char (b % 16 * 4), '=']
  | a :: b :: c :: rest =>
    [b64Char (a / 4 % 64), b64Char (a % 4 * 16 + b / 16),
     b64Char (b % 16 * 4 + c / 64), b64Char (c % 64)] ++ base64Encode rest

-- --- Speech Synthesis Client (`tts_handler.py`) ---

/-- Oracle for the two HTTP interactions inside `synthesize`, plus the
configuration state.  `Except.error` marks a raised exception (caught by
the surrounding `try`).  `postResp` carries the status code of the
generation POST and the optional `audioFile` URL of its JSON body;
`download` maps a URL to the status code and content of the GET. -/
structure TtsWorld where
  apiKey : PyStr
  postResp : PyStr → PyStr → Except Unit (Nat × Option PyStr)
  download : PyStr → Except Unit (Nat × List Nat)

/-- Table `VOICE_MAP` of `tts_handler.py`. -/
def VOICE_MAP : List (PyStr × PyStr) :=
  [(HR_MANAGER_NAME, "en-US-natalie".toList),
   (TECH_LEAD_NAME, "en-US-cooper".toList),
   ("Default".toList, "en-US-natalie".toList)]

/-- Lookup `VOICE_MAP.get(speaker_role, VOICE_MAP["Default"])`. -/
def lookupVoice (speaker_role : PyStr) : PyStr :=
  match VOICE_MAP.find? (fun p => decide (p.1 = speaker_role)) with
  | some p => p.2
  | none => "en-US-natalie".toList

/-- Function `synthesize(text, speaker_role)` from `tts_handler.py`: returns raw
audio bytes, or `b""` on a missing key, a non-200 generation response, a
missing `audioFile` URL, a failed download, or any exception. -/
def synthesize (w : TtsWorld) (text : PyStr) (speaker_role : PyStr) : List Nat :=
  if w.apiKey = [] then []
  else
    match w.postResp (lookupVoice speaker_role) text with
    | .error _ => []
    | .ok (status, audioUrl) =>
      if status ≠ 200 then []
      else
        match audioUrl with
        | none => []
        | some url =>
          match w.download url with
          | .error _ => []
          | .ok (status2, content) => if status2 = 200 then content else []

-- --- Report Generator and /chat orchestration (`main.py`) ---

/-- The JSON body returned by `/chat` on a normal (non-final) turn. -/
structure ChatResponse where
  user_transcript : PyStr
  ai_response_text : PyStr
  ai_audio_base64 : PyStr
  speaker_role : PyStr
  is_end : Bool
deriving Repr, DecidableEq

/-- The JSON body returned when `generate_final_report` succeeds. -/
structure ReportResponse where
  user_transcript : PyStr
  ai_response_text : PyStr
  ai_audio_base64 : PyStr
  speaker_role : PyStr
  is_end : Bool
  report : Report
deriving Repr, DecidableEq

/-- Observable outcome of a `/chat` request. -/
inductive ChatResult where
  /-- Normal reply (HTTP 200). -/
  | reply (r : ChatResponse)
  /-- Final-report reply (HTTP 200, `is_end = true`). -/
  | reportDone (r : ReportResponse)
  /-- The 500 response produced inside `generate_final_report`
  (`{"error": "Failed to generate report"}`). -/
  | reportError
  /-- The generic 500 of the `/chat` handler's `except`
  (`{"error": str(e)}`). -/
  | serverError (msg : PyStr)
deriving Repr, DecidableEq

/-- Last candidate utterance: the loop over `reversed(history)` in
`generate_final_report`, defaulting to the empty string. -/
def lastCandidateText (history : List Turn) : PyStr :=
  match history.reverse.find? (fun t => decide (t.role = CANDIDATE_ROLE)) with
  | some t => t.text
  | none => []

/-- Function `generate_final_report` (lines 237-346): builds the transcript and
prompt, asks the model for a strict-JSON report (the `reportResult`
oracle: `Except.error` covers a raised call or a JSON parse failure),
narrates the closing message, synthesizes its audio with `tts` and
returns the response.  The session is not mutated. -/
def generate_final_report (tts : PyStr → PyStr → List Nat) (st : Session)
    (reportResult : Except PyStr Report) : Session × ChatResult :=
  match reportResult with
  | .error _ => (st, .reportError)
  | .ok r =>
    let msg := closingMsg r
    (st, .reportDone
      { user_transcript := lastCandidateText st.history
        ai_response_text := msg
        ai_audio_base64 := base64Encode (tts msg HR_MANAGER_NAME)
        speaker_role := HR_MANAGER_NAME
        is_end := true
        report := r })

/-- The fixed clarification message of the silence branch (the
apostrophe is U+2019, as in the source). -/
def CLARIFICATION_MSG : PyStr := "Come again? I didn\u2019t hear anything.".toList

/-- The `/chat` handler (lines 352-433).  `now` is `time.time()`;
`sttResult` is the transcript returned by `transcribe_file` (or the
exception it raised); `llmResult` is the panel turn returned by
`generate_next_panel_turn` (or its exception); `reportResult` is the
report-model oracle consumed only on the report path.  Returns the
updated session and the HTTP outcome. -/
def chat (tts : PyStr → PyStr → List Nat) (now : ℚ) (st : Session)
    (sttResult : Except PyStr PyStr) (llmResult : Except PyStr PyStr)
    (reportResult : Except PyStr Report) : Session × ChatResult :=
  if now - st.start_time > MAX_INTERVIEW_DURATION then
    generate_final_report tts st reportResult
  else
    match sttResult with
    | .error e => (st, .serverError e)
    | .ok transcript =>
      let user_text := pyStrip transcript
      if user_text = [] then
        let st' := { st with history :=
          st.history ++ [⟨INTERVIEWER_ROLE, HR_MANAGER_NAME, CLARIFICATION_MSG⟩] }
        (st', .reply
          { user_transcript := []
            ai_response_text := CLARIFICATION_MSG
            ai_audio_base64 := base64Encode (tts CLARIFICATION_MSG HR_MANAGER_NAME)
            speaker_role := HR_MANAGER_NAME
            is_end := false })
      else
        let st1 := { st with history := st.history ++ [⟨CANDIDATE_ROLE, [], user_text⟩] }
        match llmResult with
        | .error e => (st1, .serverError e)
        | .ok raw =>
          let p := parse_panel_speaker_and_text (pyStrip raw)
          let st2 :=
            if p.text ≠ [] then
              { st1 with
                history := st1.history ++ [⟨INTERVIEWER_ROLE, p.speaker, p.text⟩]
                last_question := p.text }
            else st1
          if p.done then generate_final_report tts st2 reportResult
          else
            (st2, .reply
              { user_transcript := user_text
                ai_response_text := p.text
                ai_audio_base64 := base64Encode (tts p.text p.speaker)
                speaker_role := p.speaker
                is_end := false })

/-- Outcome of the `/start` endpoint. -/
inductive StartResult where
  | ok (text : PyStr) (audio_base64 : PyStr) (speaker_role : PyStr)
  /-- `start_interview_endpoint` has no `try`; an exception from the
  panel-turn call propagates after the session was already reset. -/
  | error (msg : PyStr)
deriving Repr, DecidableEq

/-- Endpoint `start_interview_endpoint` (lines 439-468): reset the session, ask
the panel model for the opening turn, parse it and append it
(unconditionally) as an Interviewer turn. -/
def start_interview (tts : PyStr → PyStr → List Nat) (now : ℚ)
    (llmResult : Except PyStr PyStr) : Session × StartResult :=
  let st0 : Session :=
    { start_time := now
      current_q_index := 0
      follow_up_count := 0
      last_question := []
      history := [] }
  match llmResult with
  | .error e => (st0, .error e)
  | .ok raw =>
    let p := parse_panel_speaker_and_text raw
    let st1 := { st0 with
      history := [⟨INTERVIEWER_ROLE, p.speaker, p.text⟩]
      last_question := p.text }
    (st1, .ok p.text (base64Encode (tts p.text p.speaker)) p.speaker)

-- Concrete inputs used by the counterexample and witness theorems.

def c1CtrInput : PyStr := "<END_<END_INTERVIEW>INTERVIEW>".toList

def c1WitInput : PyStr := "[HR_MANAGER] Goodbye! <END_INTERVIEW>".toList

def c4CtrInput : PyStr := "hello <END_INTERVIEW>".toList

def c4WitInput : PyStr := "  hello there  ".toList

def c5CtrInput : PyStr := "[TECH_LEAD] Bye <END_INTERVIEW>".toList

def c5WitInput : PyStr := "[TECH_LEAD]  Tell me about caching.".toList


/-- Well-formedness of one history entry, per the Turn data model:
role is Candidate or Interviewer, the panelist field is empty exactly
for candidates and one of the two panel identities for interviewers. -/
def TurnWF (t : Turn) : Prop :=
  (t.role = CANDIDATE_ROLE ∨ t.role = INTERVIEWER_ROLE) ∧
    (t.role = CANDIDATE_ROLE → t.panelist = []) ∧
    (t.role = INTERVIEWER_ROLE →
      t.panelist = HR_MANAGER_NAME ∨ t.panelist = TECH_LEAD_NAME)

/-- Every entry of a history is well-formed. -/
def HistoryWF (h : List Turn) : Prop := ∀ t ∈ h, TurnWF t

/-- A report whose `overall_score` disagrees with the weighted sum of
its competency scores (scores all 10, overall 0). -/
def badReport : Report :=
  { technical_knowledge := 10
    communication_skills := 10
    problem_solving := 10
    cultural_fit := 10
    overall_score := 0
    recommendation := "No Hire".toList
    pros := []
    cons := []
    summary := [] }

/-- A TTS world with no API key configured and all calls failing. -/
def deadTtsWorld : TtsWorld :=
  { apiKey := []
    postResp := fun _ _ => .error ()
    download := fun _ => .error () }


-- --- Lemmas about the embedded Python string operations ---

theorem pyContains_iff {sub s : PyStr} :
    pyContains sub s = true ↔ ∃ a b, s = a ++ sub ++ b := by
  induction s with
  | nil =>
    simp only [pyContains, List.isEmpty_iff]
    constructor
    · rintro rfl; exact ⟨[], [], rfl⟩
    · rintro ⟨a, b, h⟩
      rcases List.append_eq_nil.mp h.symm with ⟨h1, h2⟩
      rcases List.append_eq_nil.mp h1 with ⟨_, h3⟩
      exact h3
  | cons c t ih =>
    simp only [pyContains, Bool.or_eq_true, ih, List.isPrefixOf_iff_prefix]
    constructor
    · rintro (⟨b, hb⟩ | ⟨a, b, rfl⟩)
      · exact ⟨[], b, by simp [hb.symm]⟩
      · exact ⟨c :: a, b, rfl⟩
    · rintro ⟨a, b, h⟩
      cases a with
      | nil =>
        left
        exact ⟨b, by simpa using h.symm⟩
      | cons x a2 =>
        right
        rw [List.cons_append, List.cons_append] at h
        injection h with h1 h2
        exact ⟨a2, b, h2⟩

theorem pyContains_mono {sub s' s : PyStr} (hin : s' <:+: s)
    (h : pyContains sub s' = true) : pyContains sub s = true := by
  rcases pyContains_iff.mp h with ⟨a, b, rfl⟩
  rcases hin with ⟨u, v, rfl⟩
  exact pyContains_iff.mpr ⟨u ++ a, b ++ v, by simp⟩

theorem pyContains_dropWhile {sub s : PyStr} {c0 : Char}
    (hh : sub.head? = some c0) (hc : pyIsSpace c0 = false)
    (h : pyContains sub s = true) :
    pyContains sub (s.dropWhile pyIsSpace) = true := by
  induction s with
  | nil => simpa using h
  | cons c t ih =>
    rw [List.dropWhile_cons]
    by_cases hsp : pyIsSpace c = true
    · rw [if_pos hsp]
      apply ih
      have h' : sub.isPrefixOf (c :: t) = true ∨ pyContains sub t = true := by
        simpa [pyContains] using h
      rcases h' with hp | hrest
      · exfalso
        rcases List.isPrefixOf_iff_prefix.mp hp with ⟨b, hb⟩
        cases sub with
        | nil => simp at hh
        | cons s0 st =>
          injection hh with hh0
          rw [List.cons_append] at hb
          injection hb with hb1 _
          rw [← hh0, hb1] at hc
          rw [hsp] at hc
          simp at hc
      · exact hrest
    · rw [if_neg hsp]
      exact h

theorem pyContains_reverse {sub s : PyStr} (h : pyContains sub s = true) :
    pyContains sub.reverse s.reverse = true := by
  rcases pyContains_iff.mp h with ⟨a, b, rfl⟩
  exact pyContains_iff.mpr ⟨b.reverse, a.reverse, by simp⟩

theorem pyContains_pyRstrip {sub s : PyStr} {cL : Char}
    (hl : sub.getLast? = some cL) (hc : pyIsSpace cL = false)
    (h : pyContains sub s = true) :
    pyContains sub (pyRstrip s) = true := by
  have h1 : pyContains sub.reverse s.reverse = true := pyContains_reverse h
  have hh : sub.reverse.head? = some cL := by
    rw [List.head?_reverse]; exact hl
  have h2 : pyContains sub.reverse (s.reverse.dropWhile pyIsSpace) = true :=
    pyContains_dropWhile hh hc h1
  have h3 := pyContains_reverse h2
  rwa [List.reverse_reverse] at h3

theorem pyContains_pyStrip {sub s : PyStr} {c0 cL : Char}
    (hh : sub.head? = some c0) (hc0 : pyIsSpace c0 = false)
    (hl : sub.getLast? = some cL) (hcL : pyIsSpace cL = false)
    (h : pyContains sub s = true) :
    pyContains sub (pyStrip s) = true :=
  pyContains_pyRstrip hl hcL (pyContains_dropWhile hh hc0 h)

/-- If a string starting with a marker also contains `sub`, and `sub`
begins with a character absent from the marker, then the part after the
marker still contains `sub` (no occurrence can start inside the marker). -/
theorem rest_decomp :
    ∀ (marker a : PyStr) {rest sub b : PyStr} {c0 : Char},
      marker ++ rest = a ++ sub ++ b → sub.head? = some c0 → c0 ∉ marker →
      ∃ a2, rest = a2 ++ sub ++ b := by
  intro marker
  induction marker with
  | nil =>
    intro a rest sub b c0 h _ _
    exact ⟨a, by simpa using h⟩
  | cons m ms ih =>
    intro a rest sub b c0 h hh hm
    cases a with
    | nil =>
      exfalso
      cases sub with
      | nil => simp at hh
      | cons s0 st =>
        injection hh with hh0
        rw [List.nil_append, List.cons_append, List.cons_append] at h
        injection h with h1 _
        exact hm (by simp [h1, hh0])
    | cons x a2 =>
      rw [List.cons_append, List.cons_append, List.cons_append] at h
      injection h with _ h2
      exact ih a2 h2 hh (fun hmem => hm (List.mem_cons_of_mem m hmem))

theorem pyContains_drop_marker {marker sub s : PyStr} {c0 : Char}
    (hpre : marker.isPrefixOf s = true) (hh : sub.head? = some c0)
    (hm : c0 ∉ marker) (h : pyContains sub s = true) :
    pyContains sub (s.drop marker.length) = true := by
  rcases List.isPrefixOf_iff_prefix.mp hpre with ⟨rest, hrest⟩
  rcases pyContains_iff.mp h with ⟨a, b, hs⟩
  have hdrop : s.drop marker.length = rest := by
    rw [← hrest]; exact List.drop_left marker rest
  have hdec : marker ++ rest = a ++ sub ++ b := by rw [hrest, hs]
  rcases rest_decomp marker a hdec hh hm with ⟨a2, ha2⟩
  rw [hdrop, ha2]
  exact pyContains_iff.mpr ⟨a2, b, rfl⟩

theorem pyRstrip_pre {s : PyStr} : pyRstrip s <+: s := by
  have h1 : s.reverse.dropWhile pyIsSpace <:+ s.reverse :=
    List.dropWhile_suffix pyIsSpace
  rcases h1 with ⟨pre, hpre⟩
  refine ⟨pre.reverse, ?_⟩
  have := congrArg List.reverse hpre
  simpa using this

theorem pyLstrip_of_pyLstrip_fixed {s : PyStr} (h : pyLstrip s = s) :
    pyLstrip (pyRstrip s) = pyRstrip s := by
  rcases hr : pyRstrip s with _ | ⟨c, u⟩
  · rfl
  · have hpre : pyRstrip s <+: s := pyRstrip_pre
    rw [hr] at hpre
    rcases hpre with ⟨v, hv⟩
    have hs : s = c :: (u ++ v) := by rw [← hv]; simp
    have hc : pyIsSpace c = false := by
      cases hx : pyIsSpace c
      · rfl
      · exfalso
        rw [hs, pyLstrip, List.dropWhile_cons, hx] at h
        simp only [if_true] at h
        have hlen := List.IsSuffix.length_le (List.dropWhile_suffix (l := u ++ v) pyIsSpace)
        rw [show List.dropWhile pyIsSpace (u ++ v) = c :: (u ++ v) from h] at hlen
        simp at hlen
    rw [pyLstrip, List.dropWhile_cons, hc]
    simp

theorem pyLstrip_pyLstrip {s : PyStr} : pyLstrip (pyLstrip s) = pyLstrip s := by
  unfold pyLstrip
  exact List.dropWhile_idempotent pyIsSpace s

theorem pyRstrip_idem {s : PyStr} : pyRstrip (pyRstrip s) = pyRstrip s := by
  unfold pyRstrip
  rw [List.reverse_reverse, List.dropWhile_idempotent]

theorem pyStrip_idem {s : PyStr} : pyStrip (pyStrip s) = pyStrip s := by
  unfold pyStrip
  rw [pyLstrip_of_pyLstrip_fixed pyLstrip_pyLstrip, pyRstrip_idem]

theorem pyLstrip_suffix {s : PyStr} : pyLstrip s <:+ s :=
  List.dropWhile_suffix pyIsSpace

theorem pyStrip_infix {s : PyStr} : pyStrip s <:+: s :=
  (List.IsPrefix.isInfix pyRstrip_pre).trans (List.IsSuffix.isInfix pyLstrip_suffix)

theorem pyRemoveAllFuel_id {old : PyStr} :
    ∀ (f : Nat) (s : PyStr), pyContains old s = false →
      pyRemoveAllFuel old f s = s := by
  intro f
  induction f with
  | zero => intro s _; rfl
  | succ f ih =>
    intro s h
    cases s with
    | nil => rfl
    | cons c t =>
      have hboth := h
      rw [pyContains, Bool.or_eq_false_iff] at hboth
      rcases hboth with ⟨hp, ht⟩
      rw [pyRemoveAllFuel, if_neg (by simp [hp])]
      rw [ih t ht]

theorem pyRemoveAll_id {old s : PyStr} (h : pyContains old s = false) :
    pyRemoveAll old s = s :=
  pyRemoveAllFuel_id s.length s h

theorem dropWhile_fixed_head {p : Char → Bool} {l : PyStr} :
    l.dropWhile p = l ↔ ∀ c, l.head? = some c → p c = false := by
  cases l with
  | nil => simp
  | cons a l' =>
    rw [List.dropWhile_cons]
    constructor
    · intro h c hc
      injection hc with hc
      subst hc
      cases hx : p a
      · rfl
      · rw [hx] at h
        simp only [if_true] at h
        have hlen := (List.dropWhile_suffix (l := l') p).length_le
        rw [h] at hlen
        simp at hlen
    · intro h
      rw [h a rfl]
      simp

theorem pyRstrip_fixed_last {s : PyStr} :
    pyRstrip s = s ↔ ∀ c, s.getLast? = some c → pyIsSpace c = false := by
  unfold pyRstrip
  constructor
  · intro h c hc
    have h2 : List.dropWhile pyIsSpace s.reverse = s.reverse := by
      have := congrArg List.reverse h
      rwa [List.reverse_reverse] at this
    exact (dropWhile_fixed_head.mp h2) c (by rwa [List.head?_reverse])
  · intro h
    have h2 : List.dropWhile pyIsSpace s.reverse = s.reverse :=
      dropWhile_fixed_head.mpr (fun c hc => h c (by rwa [List.head?_reverse] at hc))
    rw [h2, List.reverse_reverse]

theorem pyRstrip_fixed_of_suffix {t u : PyStr} (hsuf : t <:+ u)
    (hu : pyRstrip u = u) : pyRstrip t = t := by
  apply pyRstrip_fixed_last.mpr
  intro c hc
  rcases hsuf with ⟨pre, rfl⟩
  exact (pyRstrip_fixed_last.mp hu) c (by rw [List.getLast?_append, hc]; rfl)

theorem pyRstrip_pyStrip {s : PyStr} : pyRstrip (pyStrip s) = pyStrip s := by
  unfold pyStrip
  exact pyRstrip_idem

-- --- Lemmas about `panelSplit` ---

theorem panelSplit_hr {raw : PyStr} (h1 : HR_MARKER.isPrefixOf raw = true) :
    panelSplit raw = (HR_MANAGER_NAME, pyLstrip (raw.drop HR_MARKER.length)) := by
  simp [panelSplit, h1]

theorem panelSplit_tl {raw : PyStr} (h1 : HR_MARKER.isPrefixOf raw = false)
    (h2 : TL_MARKER.isPrefixOf raw = true) :
    panelSplit raw = (TECH_LEAD_NAME, pyLstrip (raw.drop TL_MARKER.length)) := by
  simp [panelSplit, h1, h2]

theorem panelSplit_fallback {raw : PyStr} (h1 : HR_MARKER.isPrefixOf raw = false)
    (h2 : TL_MARKER.isPrefixOf raw = false) :
    panelSplit raw = (HR_MANAGER_NAME, raw) := by
  simp [panelSplit, h1, h2]

/-- A string starting with `[TECH_LEAD]` does not start with `[HR_MANAGER]`. -/
theorem hr_marker_not_first {s : PyStr} (h : TL_MARKER.isPrefixOf s = true) :
    HR_MARKER.isPrefixOf s = false := by
  cases hx : HR_MARKER.isPrefixOf s
  · rfl
  · exfalso
    have htl := List.isPrefixOf_iff_prefix.mp h
    have hhr := List.isPrefixOf_iff_prefix.mp hx
    have : TL_MARKER <+: HR_MARKER :=
      List.prefix_of_prefix_length_le htl hhr (by decide)
    exact absurd this (by decide)

theorem parse_speaker_eq (raw0 : PyStr) :
    (parse_panel_speaker_and_text raw0).speaker = (panelSplit (pyStrip raw0)).1 := rfl

theorem parse_text_eq (raw0 : PyStr) :
    (parse_panel_speaker_and_text raw0).text =
      pyStrip (pyRemoveAll END_TOKEN (panelSplit (pyStrip raw0)).2) := rfl

theorem parse_done_eq (raw0 : PyStr) :
    (parse_panel_speaker_and_text raw0).done =
      pyContains END_TOKEN (panelSplit (pyStrip raw0)).2 := rfl

-- --- Claim theorems ---

/-- C1 (counterexample): on the input `<END_<END_INTERVIEW>INTERVIEW>`,
which contains the end token, the single-pass `replace` joins the
flanking fragments into a fresh token: the cleaned text returned by
`parse_panel_speaker_and_text` still contains `<END_INTERVIEW>`,
refuting the claim that the cleaned text always has zero occurrences. -/
theorem C1_counterexample :
    pyContains END_TOKEN c1CtrInput = true ∧
      pyContains END_TOKEN (parse_panel_speaker_and_text c1CtrInput).text = true := by
  decide

/-- C1 (amended): for every raw string containing `<END_INTERVIEW>`
anywhere — before, inside or after any marker — the completion flag is
true and the cleaned text has no leading or trailing whitespace; the
token removal is a single left-to-right replacement pass, so an
occurrence spliced together from the fragments around a removed one can
survive in the cleaned text. -/
theorem C1_end_token_detected {raw : PyStr}
    (h : pyContains END_TOKEN raw = true) :
    (parse_panel_speaker_and_text raw).done = true ∧
      pyStrip (parse_panel_speaker_and_text raw).text =
        (parse_panel_speaker_and_text raw).text := by
  have hstrip : pyContains END_TOKEN (pyStrip raw) = true :=
    pyContains_pyStrip (show END_TOKEN.head? = some '<' by decide) (by decide)
      (show END_TOKEN.getLast? = some '>' by decide) (by decide) h
  constructor
  · rw [parse_done_eq]
    by_cases hHR : HR_MARKER.isPrefixOf (pyStrip raw) = true
    · rw [panelSplit_hr hHR]
      exact pyContains_dropWhile (show END_TOKEN.head? = some '<' by decide) (by decide)
        (pyContains_drop_marker hHR (show END_TOKEN.head? = some '<' by decide)
          (by decide) hstrip)
    · have hHR' : HR_MARKER.isPrefixOf (pyStrip raw) = false :=
        Bool.not_eq_true _ |>.mp hHR
      by_cases hTL : TL_MARKER.isPrefixOf (pyStrip raw) = true
      · rw [panelSplit_tl hHR' hTL]
        exact pyContains_dropWhile (show END_TOKEN.head? = some '<' by decide) (by decide)
          (pyContains_drop_marker hTL (show END_TOKEN.head? = some '<' by decide)
            (by decide) hstrip)
      · rw [panelSplit_fallback hHR' (Bool.not_eq_true _ |>.mp hTL)]
        exact hstrip
  · rw [parse_text_eq]
    exact pyStrip_idem

/-- C1 (witness): the amended theorem applied to a concrete closing
message carrying the end token after the HR marker. -/
theorem C1_end_token_detected_witness :
    pyContains END_TOKEN c1WitInput = true ∧
      ((parse_panel_speaker_and_text c1WitInput).done = true ∧
        pyStrip (parse_panel_speaker_and_text c1WitInput).text =
          (parse_panel_speaker_and_text c1WitInput).text) :=
  ⟨by decide, C1_end_token_detected (by decide)⟩

/-- C4 (counterexample): `hello <END_INTERVIEW>` starts with neither
marker, yet the cleaned text is `hello`, not the trimmed input — the
end-token removal also runs in the fallback branch, refuting the claim
that the cleaned text always equals the trimmed input. -/
theorem C4_counterexample :
    HR_MARKER.isPrefixOf (pyStrip c4CtrInput) = false ∧
      TL_MARKER.isPrefixOf (pyStrip c4CtrInput) = false ∧
      (parse_panel_speaker_and_text c4CtrInput).text ≠ pyStrip c4CtrInput := by
  decide

/-- C4 (amended): for every raw string that, after trimming, starts with
neither `[HR_MANAGER]` nor `[TECH_LEAD]` and that does not contain the
end token, parsing returns speaker `HR Manager` and cleaned text equal
to the trimmed input (and, being a total function, never raises). -/
theorem C4_fallback_speaker {raw : PyStr}
    (h1 : HR_MARKER.isPrefixOf (pyStrip raw) = false)
    (h2 : TL_MARKER.isPrefixOf (pyStrip raw) = false)
    (hn : pyContains END_TOKEN raw = false) :
    (parse_panel_speaker_and_text raw).speaker = HR_MANAGER_NAME ∧
      (parse_panel_speaker_and_text raw).text = pyStrip raw := by
  have hn' : pyContains END_TOKEN (pyStrip raw) = false := by
    cases hx : pyContains END_TOKEN (pyStrip raw)
    · rfl
    · exact absurd (pyContains_mono pyStrip_infix hx) (by simp [hn])
  constructor
  · rw [parse_speaker_eq, panelSplit_fallback h1 h2]
  · rw [parse_text_eq, panelSplit_fallback h1 h2]
    rw [pyRemoveAll_id hn']
    exact pyStrip_idem

/-- C4 (witness): the amended theorem applied to a marker-free,
token-free input with surrounding whitespace. -/
theorem C4_fallback_speaker_witness :
    HR_MARKER.isPrefixOf (pyStrip c4WitInput) = false ∧
      TL_MARKER.isPrefixOf (pyStrip c4WitInput) = false ∧
      pyContains END_TOKEN c4WitInput = false ∧
      ((parse_panel_speaker_and_text c4WitInput).speaker = HR_MANAGER_NAME ∧
        (parse_panel_speaker_and_text c4WitInput).text = pyStrip c4WitInput) :=
  ⟨by decide, by decide, by decide,
    C4_fallback_speaker (by decide) (by decide) (by decide)⟩

/-- C5 (counterexample): `[TECH_LEAD] Bye <END_INTERVIEW>` begins with the
Tech-Lead marker followed by ` Bye <END_INTERVIEW>`, but the cleaned
text is `Bye`, not that remainder with leading whitespace trimmed — the
end-token removal and final strip also apply, refuting the claim as
stated. -/
theorem C5_counterexample :
    TL_MARKER.isPrefixOf (pyStrip c5CtrInput) = true ∧
      (parse_panel_speaker_and_text c5CtrInput).speaker = TECH_LEAD_NAME ∧
      (parse_panel_speaker_and_text c5CtrInput).text ≠
        pyLstrip ((pyStrip c5CtrInput).drop TL_MARKER.length) := by
  decide

/-- C5 (amended): for every raw string whose trimmed form begins with
`[TECH_LEAD]` and which does not contain the end token, parsing returns
speaker `Tech Lead` and cleaned text equal to the text after the marker
with leading whitespace trimmed. -/
theorem C5_tech_lead_marker {raw : PyStr}
    (h2 : TL_MARKER.isPrefixOf (pyStrip raw) = true)
    (hn : pyContains END_TOKEN raw = false) :
    (parse_panel_speaker_and_text raw).speaker = TECH_LEAD_NAME ∧
      (parse_panel_speaker_and_text raw).text =
        pyLstrip ((pyStrip raw).drop TL_MARKER.length) := by
  have h1 : HR_MARKER.isPrefixOf (pyStrip raw) = false := hr_marker_not_first h2
  have hXinfix : pyLstrip ((pyStrip raw).drop TL_MARKER.length) <:+: raw :=
    (List.IsSuffix.isInfix
      (pyLstrip_suffix.trans (List.drop_suffix TL_MARKER.length (pyStrip raw)))).trans
      pyStrip_infix
  have hn' : pyContains END_TOKEN (pyLstrip ((pyStrip raw).drop TL_MARKER.length)) = false := by
    cases hx : pyContains END_TOKEN (pyLstrip ((pyStrip raw).drop TL_MARKER.length))
    · rfl
    · exact absurd (pyContains_mono hXinfix hx) (by simp [hn])
  constructor
  · rw [parse_speaker_eq, panelSplit_tl h1 h2]
  · rw [parse_text_eq, panelSplit_tl h1 h2]
    rw [pyRemoveAll_id hn']
    have hfix : pyRstrip (pyLstrip ((pyStrip raw).drop TL_MARKER.length)) =
        pyLstrip ((pyStrip raw).drop TL_MARKER.length) :=
      pyRstrip_fixed_of_suffix
        (pyLstrip_suffix.trans (List.drop_suffix TL_MARKER.length (pyStrip raw)))
        pyRstrip_pyStrip
    rw [show (pyStrip (pyLstrip ((pyStrip raw).drop TL_MARKER.length)) : PyStr) =
        pyRstrip (pyLstrip (pyLstrip ((pyStrip raw).drop TL_MARKER.length))) from rfl]
    rw [pyLstrip_pyLstrip, hfix]

/-- C5 (witness): the amended theorem applied to a concrete Tech-Lead
turn with extra whitespace after the marker. -/
theorem C5_tech_lead_marker_witness :
    TL_MARKER.isPrefixOf (pyStrip c5WitInput) = true ∧
      pyContains END_TOKEN c5WitInput = false ∧
      ((parse_panel_speaker_and_text c5WitInput).speaker = TECH_LEAD_NAME ∧
        (parse_panel_speaker_and_text c5WitInput).text =
          pyLstrip ((pyStrip c5WitInput).drop TL_MARKER.length)) :=
  ⟨by decide, by decide, C5_tech_lead_marker (by decide) (by decide)⟩

/-- C2: a whitespace-only transcript never appends a Candidate turn and
never consults the panel-turn model: the session gains exactly one
Interviewer turn, attributed to the HR Manager and carrying the fixed
clarification message, all other session fields are unchanged, the reply
is that turn with `is_end = false`, and the outcome is independent of
the panel-model and report-model oracles (they are not invoked). -/
theorem C2_silence_branch (tts : PyStr → PyStr → List Nat) (now : ℚ) (st : Session)
    (t : PyStr) (llm : Except PyStr PyStr) (rep : Except PyStr Report)
    (hT : now - st.start_time ≤ MAX_INTERVIEW_DURATION)
    (ht : pyStrip t = []) :
    (chat tts now st (.ok t) llm rep).1 =
      { st with history :=
          st.history ++ [⟨INTERVIEWER_ROLE, HR_MANAGER_NAME, CLARIFICATION_MSG⟩] } ∧
      (chat tts now st (.ok t) llm rep).2 =
        .reply { user_transcript := []
                 ai_response_text := CLARIFICATION_MSG
                 ai_audio_base64 := base64Encode (tts CLARIFICATION_MSG HR_MANAGER_NAME)
                 speaker_role := HR_MANAGER_NAME
                 is_end := false } ∧
      (∀ llm' rep', chat tts now st (.ok t) llm' rep' = chat tts now st (.ok t) llm rep) := by
  have hT' : ¬(now - st.start_time > MAX_INTERVIEW_DURATION) := not_lt.mpr hT
  refine ⟨?_, ?_, fun llm' rep' => ?_⟩ <;> simp [chat, hT', ht]

/-- C2 (witness): the silence branch evaluated at time `0` on a fresh
session with a whitespace-only transcript. -/
theorem C2_silence_branch_witness :
    ((0 : ℚ) - initial_session_state.start_time ≤ MAX_INTERVIEW_DURATION ∧
        pyStrip (" ".toList) = []) ∧
      (chat (fun _ _ => []) 0 initial_session_state (.ok (" ".toList))
          (.ok []) (.error [])).1 =
        { initial_session_state with history :=
            initial_session_state.history ++
              [⟨INTERVIEWER_ROLE, HR_MANAGER_NAME, CLARIFICATION_MSG⟩] } :=
  ⟨⟨by norm_num [initial_session_state, MAX_INTERVIEW_DURATION], by decide⟩,
    (C2_silence_branch (fun _ _ => []) 0 initial_session_state (" ".toList)
      (.ok []) (.error [])
      (by norm_num [initial_session_state, MAX_INTERVIEW_DURATION]) (by decide)).1⟩

/-- C3: once the elapsed time exceeds the 300-second ceiling, `/chat`
routes straight to `generate_final_report`: the session history is
unchanged (no Candidate turn is appended) and the outcome is independent
of the transcription and panel-model oracles — neither is consulted,
because the check sits at the top of the handler. -/
theorem C3_timeout_short_circuit (tts : PyStr → PyStr → List Nat) (now : ℚ)
    (st : Session) (stt llm : Except PyStr PyStr) (rep : Except PyStr Report)
    (hT : now - st.start_time > MAX_INTERVIEW_DURATION) :
    chat tts now st stt llm rep = generate_final_report tts st rep ∧
      (chat tts now st stt llm rep).1.history = st.history ∧
      (∀ stt' llm', chat tts now st stt' llm' rep = chat tts now st stt llm rep) := by
  have h1 : ∀ s l, chat tts now st s l rep = generate_final_report tts st rep := by
    intro s l
    simp [chat, hT]
  refine ⟨h1 stt llm, ?_, fun s l => (h1 s l).trans (h1 stt llm).symm⟩
  rw [h1 stt llm]
  cases rep <;> simp [generate_final_report]

/-- C3 (witness): the timeout path evaluated at time `400` on a session
started at time `0`, with a non-empty transcript supplied. -/
theorem C3_timeout_short_circuit_witness :
    (400 : ℚ) - initial_session_state.start_time > MAX_INTERVIEW_DURATION ∧
      chat (fun _ _ => []) 400 initial_session_state (.ok ("hi".toList))
          (.ok []) (.error []) =
        generate_final_report (fun _ _ => []) initial_session_state (.error []) :=
  ⟨by norm_num [initial_session_state, MAX_INTERVIEW_DURATION],
    (C3_timeout_short_circuit (fun _ _ => []) 400 initial_session_state
      (.ok ("hi".toList)) (.ok []) (.error [])
      (by norm_num [initial_session_state, MAX_INTERVIEW_DURATION])).1⟩

/-- C6: when transcription yields non-empty text but the panel-model
call raises, the Candidate turn appended beforehand stays in the history
(no rollback), the model is not retried, and the exception surfaces as
the handler's generic 500 (`{"error": str(e)}`). -/
theorem C6_llm_failure_no_rollback (tts : PyStr → PyStr → List Nat) (now : ℚ)
    (st : Session) (t e : PyStr) (rep : Except PyStr Report)
    (hT : now - st.start_time ≤ MAX_INTERVIEW_DURATION)
    (ht : pyStrip t ≠ []) :
    chat tts now st (.ok t) (.error e) rep =
      ({ st with history := st.history ++ [⟨CANDIDATE_ROLE, [], pyStrip t⟩] },
        .serverError e) := by
  have hT' : ¬(now - st.start_time > MAX_INTERVIEW_DURATION) := not_lt.mpr hT
  simp [chat, hT', ht]

/-- C6 (witness): the failing-model path evaluated on a fresh session at
time `0` with transcript `hi`. -/
theorem C6_llm_failure_no_rollback_witness :
    ((0 : ℚ) - initial_session_state.start_time ≤ MAX_INTERVIEW_DURATION ∧
        pyStrip ("hi".toList) ≠ []) ∧
      chat (fun _ _ => []) 0 initial_session_state (.ok ("hi".toList))
          (.error ("boom".toList)) (.error []) =
        ({ initial_session_state with history :=
            initial_session_state.history ++ [⟨CANDIDATE_ROLE, [], pyStrip ("hi".toList)⟩] },
          .serverError ("boom".toList)) :=
  ⟨⟨by norm_num [initial_session_state, MAX_INTERVIEW_DURATION], by decide⟩,
    C6_llm_failure_no_rollback (fun _ _ => []) 0 initial_session_state
      ("hi".toList) ("boom".toList) (.error [])
      (by norm_num [initial_session_state, MAX_INTERVIEW_DURATION]) (by decide)⟩

/-- C10: calling `/chat` before `/start` leaves `start_time = 0`, so at
any wall-clock time greater than the 300-second ceiling the handler
short-circuits to report generation over the empty history; on a
successful report the returned last candidate utterance is the empty
string, since no Candidate turn exists. -/
theorem C10_chat_before_start (tts : PyStr → PyStr → List Nat) (now : ℚ)
    (stt llm : Except PyStr PyStr) (rep : Except PyStr Report)
    (h : now > MAX_INTERVIEW_DURATION) :
    chat tts now initial_session_state stt llm rep =
      generate_final_report tts initial_session_state rep ∧
      (∀ r, rep = .ok r →
        (chat tts now initial_session_state stt llm rep).2 =
          .reportDone { user_transcript := []
                        ai_response_text := closingMsg r
                        ai_audio_base64 :=
                          base64Encode (tts (closingMsg r) HR_MANAGER_NAME)
                        speaker_role := HR_MANAGER_NAME
                        is_end := true
                        report := r }) := by
  have hT : now - initial_session_state.start_time > MAX_INTERVIEW_DURATION := by
    simpa [initial_session_state] using h
  have hmain : ∀ rep0 : Except PyStr Report,
      chat tts now initial_session_state stt llm rep0 =
        generate_final_report tts initial_session_state rep0 := by
    intro rep0
    simp [chat, hT]
  refine ⟨hmain rep, ?_⟩
  rintro r rfl
  rw [hmain]
  simp [generate_final_report, lastCandidateText, initial_session_state]

/-- C10 (witness): `/chat` at wall-clock time `301` against the
never-started session, with a successful report oracle. -/
theorem C10_chat_before_start_witness :
    (301 : ℚ) > MAX_INTERVIEW_DURATION ∧
      chat (fun _ _ => []) 301 initial_session_state (.ok ("hi".toList))
          (.ok []) (.error []) =
        generate_final_report (fun _ _ => []) initial_session_state (.error []) :=
  ⟨by norm_num [MAX_INTERVIEW_DURATION],
    (C10_chat_before_start (fun _ _ => []) 301 (.ok ("hi".toList)) (.ok [])
      (.error []) (by norm_num [MAX_INTERVIEW_DURATION])).1⟩

theorem historyWF_append {h : List Turn} {t : Turn}
    (hh : HistoryWF h) (ht : TurnWF t) : HistoryWF (h ++ [t]) := by
  intro x hx
  rcases List.mem_append.mp hx with hx | hx
  · exact hh x hx
  · rw [List.mem_singleton.mp hx]
    exact ht

theorem turnWF_interviewer {p text : PyStr}
    (hp : p = HR_MANAGER_NAME ∨ p = TECH_LEAD_NAME) :
    TurnWF ⟨INTERVIEWER_ROLE, p, text⟩ :=
  ⟨Or.inr rfl,
    fun h => absurd (show INTERVIEWER_ROLE = CANDIDATE_ROLE from h) (by decide),
    fun _ => hp⟩

theorem turnWF_candidate {text : PyStr} : TurnWF ⟨CANDIDATE_ROLE, [], text⟩ :=
  ⟨Or.inl rfl, fun _ => rfl,
    fun h => absurd (show CANDIDATE_ROLE = INTERVIEWER_ROLE from h) (by decide)⟩

theorem parse_speaker_cases (raw0 : PyStr) :
    (parse_panel_speaker_and_text raw0).speaker = HR_MANAGER_NAME ∨
      (parse_panel_speaker_and_text raw0).speaker = TECH_LEAD_NAME := by
  rw [parse_speaker_eq]
  unfold panelSplit
  split_ifs <;> simp

/-- C7 (counterexample): a report whose `overall_score` (0) disagrees
with the weighted sum of its competency scores (10) flows through
`generate_final_report` into the returned response unchanged — the
program applies no consistency check, so an inconsistent overall score
is returned undetected. -/
theorem C7_counterexample :
    (generate_final_report (fun _ _ => []) initial_session_state (.ok badReport)).2 =
      .reportDone { user_transcript := []
                    ai_response_text := closingMsg badReport
                    ai_audio_base64 := []
                    speaker_role := HR_MANAGER_NAME
                    is_end := true
                    report := badReport } ∧
      badReport.overall_score ≠ specWeightedOverall badReport := by
  constructor
  · simp [generate_final_report, lastCandidateText, initial_session_state, base64Encode]
  · norm_num [specWeightedOverall, badReport]

/-- C7 (amended): the overall score is deterministically derivable from
the four competency scores under the fixed weights 0.40/0.30/0.20/0.10
(`specWeightedOverall` ignores every other report field), but the
program does not enforce this: `generate_final_report` forwards the
model-supplied report verbatim in its response, so an `overall_score`
inconsistent with the weighted sum is returned undetected. -/
theorem C7_report_passthrough :
    (∀ (tts : PyStr → PyStr → List Nat) (st : Session) (r : Report),
        (generate_final_report tts st (.ok r)).2 =
          .reportDone { user_transcript := lastCandidateText st.history
                        ai_response_text := closingMsg r
                        ai_audio_base64 :=
                          base64Encode (tts (closingMsg r) HR_MANAGER_NAME)
                        speaker_role := HR_MANAGER_NAME
                        is_end := true
                        report := r }) ∧
      (∀ (a b c d o o' : ℚ) (rec rec' : PyStr) (pr pr' cn cn' : List PyStr)
          (su su' : PyStr),
        specWeightedOverall ⟨a, b, c, d, o, rec, pr, cn, su⟩ =
          specWeightedOverall ⟨a, b, c, d, o', rec', pr', cn', su'⟩) :=
  ⟨fun _ _ _ => rfl, fun _ _ _ _ _ _ _ _ _ _ _ _ _ _ => rfl⟩

/-- C8: every history produced by the orchestration operations is made
of well-formed turns — roles are Candidate or Interviewer, candidates
carry an empty panelist, interviewers carry `HR Manager` or `Tech Lead`.
The `/chat` handler preserves the invariant from any well-formed state,
and `/start` establishes it from scratch. -/
theorem C8_history_invariant :
    (∀ (tts : PyStr → PyStr → List Nat) (now : ℚ) (st : Session)
        (stt llm : Except PyStr PyStr) (rep : Except PyStr Report),
        HistoryWF st.history → HistoryWF (chat tts now st stt llm rep).1.history) ∧
      (∀ (tts : PyStr → PyStr → List Nat) (now : ℚ) (llm : Except PyStr PyStr),
        HistoryWF (start_interview tts now llm).1.history) := by
  have hrep : ∀ (tts : PyStr → PyStr → List Nat) (st : Session)
      (rep : Except PyStr Report), HistoryWF st.history →
      HistoryWF (generate_final_report tts st rep).1.history := by
    intro tts st rep h
    cases rep <;> simpa [generate_final_report] using h
  constructor
  · intro tts now st stt llm rep hwf
    by_cases hT : now - st.start_time > MAX_INTERVIEW_DURATION
    · have : chat tts now st stt llm rep = generate_final_report tts st rep := by
        simp [chat, hT]
      rw [this]
      exact hrep tts st rep hwf
    · cases stt with
      | error e => simpa [chat, hT] using hwf
      | ok t =>
        by_cases ht : pyStrip t = []
        · have : (chat tts now st (.ok t) llm rep).1 =
              { st with history := st.history ++
                [⟨INTERVIEWER_ROLE, HR_MANAGER_NAME, CLARIFICATION_MSG⟩] } := by
            simp [chat, hT, ht]
          rw [this]
          exact historyWF_append hwf (turnWF_interviewer (Or.inl rfl))
        · cases llm with
          | error e =>
            have : (chat tts now st (.ok t) (.error e) rep).1 =
                { st with history := st.history ++ [⟨CANDIDATE_ROLE, [], pyStrip t⟩] } := by
              simp [chat, hT, ht]
            rw [this]
            exact historyWF_append hwf turnWF_candidate
          | ok raw =>
            have hwf1 : HistoryWF (st.history ++ [⟨CANDIDATE_ROLE, [], pyStrip t⟩]) :=
              historyWF_append hwf turnWF_candidate
            have hwf2 : HistoryWF ((st.history ++ [⟨CANDIDATE_ROLE, [], pyStrip t⟩]) ++
                [⟨INTERVIEWER_ROLE,
                  (parse_panel_speaker_and_text (pyStrip raw)).speaker,
                  (parse_panel_speaker_and_text (pyStrip raw)).text⟩]) :=
              historyWF_append hwf1
                (turnWF_interviewer (parse_speaker_cases (pyStrip raw)))
            simp only [chat, hT, ht, if_neg, if_false]
            split
            · split
              · apply hrep
                simpa using hwf2
              · apply hrep
                simpa using hwf1
            · split
              · simpa using hwf2
              · simpa using hwf1
  · intro tts now llm
    cases llm with
    | error e => intro x hx; simp [start_interview] at hx
    | ok raw =>
      intro x hx
      simp [start_interview] at hx
      rw [hx]
      exact turnWF_interviewer (parse_speaker_cases raw)

/-- C8 (witness): the invariant theorem applied at a concrete chat call
on the fresh (empty-history) session. -/
theorem C8_history_invariant_witness :
    HistoryWF initial_session_state.history ∧
      HistoryWF ((chat (fun _ _ => []) 0 initial_session_state
        (.ok (" ".toList)) (.ok []) (.error [])).1.history) :=
  ⟨fun x hx => absurd hx (List.not_mem_nil x),
    C8_history_invariant.1 (fun _ _ => []) 0 initial_session_state
      (.ok (" ".toList)) (.ok []) (.error [])
      (fun x hx => absurd hx (List.not_mem_nil x))⟩

/-- C9: `synthesize` returns empty bytes instead of raising in every
failure mode — missing API key, an exception in the generation POST, a
non-200 generation status, a missing `audioFile` URL, an exception or a
non-200 status when downloading the audio — and the `/chat` caller still
returns a normal reply, base64-encoding the empty result (empty audio
field), rather than failing the request. -/
theorem C9_synthesize_soft_fail :
    (∀ (w : TtsWorld) (text role : PyStr),
        w.apiKey = [] → synthesize w text role = []) ∧
      (∀ (w : TtsWorld) (text role : PyStr),
        w.postResp (lookupVoice role) text = .error () → synthesize w text role = []) ∧
      (∀ (w : TtsWorld) (text role : PyStr) (s : Nat) (u : Option PyStr),
        w.postResp (lookupVoice role) text = .ok (s, u) → s ≠ 200 →
          synthesize w text role = []) ∧
      (∀ (w : TtsWorld) (text role : PyStr) (s : Nat),
        w.postResp (lookupVoice role) text = .ok (s, none) →
          synthesize w text role = []) ∧
      (∀ (w : TtsWorld) (text role : PyStr) (s : Nat) (url : PyStr),
        w.postResp (lookupVoice role) text = .ok (s, some url) →
          w.download url = .error () → synthesize w text role = []) ∧
      (∀ (w : TtsWorld) (text role : PyStr) (s : Nat) (url : PyStr) (s2 : Nat)
          (content : List Nat),
        w.postResp (lookupVoice role) text = .ok (s, some url) →
          w.download url = .ok (s2, content) → s2 ≠ 200 →
          synthesize w text role = []) ∧
      (∀ (w : TtsWorld) (now : ℚ) (st : Session) (t : PyStr)
          (llm : Except PyStr PyStr) (rep : Except PyStr Report),
        now - st.start_time ≤ MAX_INTERVIEW_DURATION → pyStrip t = [] →
          w.apiKey = [] →
          (chat (synthesize w) now st (.ok t) llm rep).2 =
            .reply { user_transcript := []
                     ai_response_text := CLARIFICATION_MSG
                     ai_audio_base64 := []
                     speaker_role := HR_MANAGER_NAME
                     is_end := false }) := by
  refine ⟨?_, ?_, ?_, ?_, ?_, ?_, ?_⟩
  · intro w text role h
    simp [synthesize, h]
  · intro w text role h
    by_cases hk : w.apiKey = []
    · simp [synthesize, hk]
    · simp [synthesize, hk, h]
  · intro w text role s u h hs
    by_cases hk : w.apiKey = []
    · simp [synthesize, hk]
    · simp [synthesize, hk, h, hs]
  · intro w text role s h
    by_cases hk : w.apiKey = []
    · simp [synthesize, hk]
    · by_cases hs : s = 200
      · simp [synthesize, hk, h, hs]
      · simp [synthesize, hk, h, hs]
  · intro w text role s url h hd
    by_cases hk : w.apiKey = []
    · simp [synthesize, hk]
    · by_cases hs : s = 200
      · simp [synthesize, hk, h, hs, hd]
      · simp [synthesize, hk, h, hs]
  · intro w text role s url s2 content h hd hs2
    by_cases hk : w.apiKey = []
    · simp [synthesize, hk]
    · by_cases hs : s = 200
      · simp [synthesize, hk, h, hs, hd, hs2]
      · simp [synthesize, hk, h, hs]
  · intro w now st t llm rep hT ht hk
    have hT' : ¬(now - st.start_time > MAX_INTERVIEW_DURATION) := not_lt.mpr hT
    have hsyn : synthesize w CLARIFICATION_MSG HR_MANAGER_NAME = [] := by
      simp [synthesize, hk]
    simp [chat, hT', ht, hsyn, base64Encode]

/-- C9 (witness): the missing-key branch and the silence-branch caller
evaluated on a dead TTS world at time `0`. -/
theorem C9_synthesize_soft_fail_witness :
    (deadTtsWorld.apiKey = [] ∧
        synthesize deadTtsWorld ("hi".toList) HR_MANAGER_NAME = []) ∧
      ((0 : ℚ) - initial_session_state.start_time ≤ MAX_INTERVIEW_DURATION ∧
        pyStrip (" ".toList) = [] ∧
        (chat (synthesize deadTtsWorld) 0 initial_session_state
            (.ok (" ".toList)) (.ok []) (.error [])).2 =
          .reply { user_transcript := []
                   ai_response_text := CLARIFICATION_MSG
                   ai_audio_base64 := []
                   speaker_role := HR_MANAGER_NAME
                   is_end := false }) :=
  ⟨⟨rfl, C9_synthesize_soft_fail.1 deadTtsWorld ("hi".toList) HR_MANAGER_NAME rfl⟩,
    ⟨by norm_num [initial_session_state, MAX_INTERVIEW_DURATION], by decide,
      C9_synthesize_soft_fail.2.2.2.2.2.2 deadTtsWorld 0 initial_session_state
        (" ".toList) (.ok []) (.error [])
        (by norm_num [initial_session_state, MAX_INTERVIEW_DURATION]) (by decide) rfl⟩⟩

end AIIS
